import Mathlib

/-!
Verification of the e-commerce data pipeline's generation, validation and
staging-ingestion logic (scripts/data_generation/generate_data.py and
scripts/ingestion/ingest_to_staging.py), shallowly embedded in Lean.

Randomness is modelled by explicit choice oracles: `random.choice(l)` becomes
an index into `l` reduced modulo its length, `random.randint(a, b)` becomes
`a + k % (b - a + 1)`, and `random.uniform(a, b)` becomes `a + (b - a) * c`
for a supplied coefficient clamped to `[0, 1]`.  Monetary values are
rationals; Python's `round(x, 2)` is modelled by `round2` below.
-/

attribute [local semireducible] Rat.add Rat.mul Rat.inv Rat.sub Rat.ofScientific

/-- Python `round(x, 2)`: round to two decimal places.  (Ties are resolved
by `round`, i.e. half away from zero upwards; Python uses round-half-even,
but no property below depends on tie resolution, only on determinism and on
`|round2 x - x| ≤ 1/200`.) -/
def round2 (x : ℚ) : ℚ := ((round (x * 100) : ℤ) : ℚ) / 100

/-- Model of `random.choice(l)`: some element of `l`, selected by an oracle
key reduced modulo the length (Python raises on an empty list; here the
default `d` is returned and all claims about choices assume nonemptiness). -/
def pickD {α : Type} (l : List α) (d : α) (k : ℕ) : α := l.getD (k % l.length) d

/-- Model of `random.randint(a, b)` (inclusive bounds): an oracle key reduced
into `[a, b]`. -/
def randint (a b k : ℕ) : ℕ := a + k % (b - a + 1)

/-- Clamp a rational into `[0, 1]`. -/
def clamp01 (r : ℚ) : ℚ := max 0 (min 1 r)

/-- Model of `random.uniform(a, b)`: an arbitrary point of `[a, b]` given by
an oracle coefficient. -/
def uniformQ (a b : ℚ) (r : ℚ) : ℚ := a + (b - a) * clamp01 r

/-- Python dict assignment `m[k] = v`: replace the entry if the key is
present, otherwise append it. -/
def setEntry (m : List (String × ℚ)) (k : String) (v : ℚ) : List (String × ℚ) :=
  match m with
  | [] => [(k, v)]
  | (k', v') :: rest => if k' = k then (k, v) :: rest else (k', v') :: setEntry rest k v

/-- Little-endian base-10 digits of `n`, with explicit structural fuel so the
kernel can evaluate it (`digitsGo f 0 = []`; the fuel is always sufficient
since `n / 10 < n`). -/
def digitsGo : ℕ → ℕ → List ℕ
  | _, 0 => []
  | 0, _ + 1 => []
  | f + 1, n + 1 => (n + 1) % 10 :: digitsGo f ((n + 1) / 10)

/-- Little-endian base-10 digits of `n`. -/
def natDigits (n : ℕ) : List ℕ := digitsGo n n

/-- Decimal string of `n` as a character list (most significant digit
first); model of Python `str(n)` for `n > 0`. -/
def natChars (n : ℕ) : List Char := ((natDigits n).map Nat.digitChar).reverse

/-- Model of Python `f"{k:0wd}"`: the decimal digits of `k`, left-padded with
zeros to width `w`. -/
def padChars (w k : ℕ) : List Char :=
  List.replicate (w - (natChars k).length) '0' ++ natChars k

/-- Model of the f-string identifier formats `f"CUST{k:04d}"` etc. -/
def fmtId (pre : String) (w k : ℕ) : String := pre ++ String.mk (padChars w k)


/-! ## Data model (generate_data.py) -/

/-- A Customer record (all non-key fields are strings supplied by the
Faker-modelling oracle; `country` is the constant `"India"`). -/
structure Customer where
  customer_id : String
  first_name : String
  last_name : String
  email : String
  phone : String
  registration_date : String
  city : String
  state : String
  country : String
  age_group : String
deriving DecidableEq, Repr

/-- The column set of the customers DataFrame, in record-key order. -/
def CUSTOMER_COLUMNS : List String :=
  ["customer_id", "first_name", "last_name", "email", "phone",
   "registration_date", "city", "state", "country", "age_group"]

/-- A pandas DataFrame of customers: its column set together with its rows.
`pd.DataFrame(list_of_dicts)` derives the columns from the records' keys,
so an empty record list yields an empty column set. -/
structure CustomersFrame where
  columns : List String
  rows : List Customer
deriving DecidableEq, Repr

/-- Oracle values consumed for one customer (Faker field values and the
`random.choice` key for the age group). -/
structure CustChoice where
  firstName : String
  lastName : String
  email : String
  phone : String
  regDate : String
  city : String
  state : String
  ageK : ℕ
deriving Repr

def AGE_GROUPS : List String := ["18-25", "25-35", "35-50", "50+"]

/-- One customer record of `generate_customers` (`fake.phone_number()[:15]`
is modelled by truncating the oracle string to 15 characters). -/
def mkCustomer (i : ℕ) (o : CustChoice) : Customer :=
  { customer_id := fmtId "CUST" 4 (i + 1)
    first_name := o.firstName
    last_name := o.lastName
    email := o.email
    phone := String.mk (o.phone.data.take 15)
    registration_date := o.regDate
    city := o.city
    state := o.state
    country := "India"
    age_group := pickD AGE_GROUPS "" o.ageK }

/-- `df.drop_duplicates(subset=['email'], keep='first')` on the rows: keep
the first record for each email, preserving order. -/
def dedupGo (seen : List String) : List Customer → List Customer
  | [] => []
  | c :: cs =>
    if seen.contains c.email then dedupGo seen cs
    else c :: dedupGo (c.email :: seen) cs

def dedupByEmail (l : List Customer) : List Customer := dedupGo [] l

/-- `generate_customers(num_customers)`.  The count is an integer because
Python accepts negative arguments: `range(n)` is then empty, exactly as for
zero.  `pd.DataFrame` of an empty record list has no columns, and pandas
`drop_duplicates` returns an empty frame unchanged (for a nonempty frame
the subset column `email` is present and first occurrences are kept). -/
def generate_customers (num_customers : ℤ) (o : ℕ → CustChoice) : CustomersFrame :=
  let customers := (List.range num_customers.toNat).map (fun i => mkCustomer i (o i))
  { columns := if customers.isEmpty then [] else CUSTOMER_COLUMNS
    rows := dedupByEmail customers }

/-- A Product record. -/
structure Product where
  product_id : String
  product_name : String
  category : String
  sub_category : String
  price : ℚ
  cost : ℚ
  brand : String
  stock_quantity : ℕ
  supplier_id : String
deriving DecidableEq, Repr

/-- One entry of the `CATEGORIES` configuration table: name, subcategory
list and price range. -/
structure Category where
  name : String
  subcats : List String
  priceLo : ℚ
  priceHi : ℚ
deriving DecidableEq, Repr

/-- The fixed six-category catalog of `generate_data.py`. -/
def CATEGORIES : List Category :=
  [⟨"Electronics", ["Phones", "Laptops", "Tablets", "Accessories"], 500, 50000⟩,
   ⟨"Clothing", ["Men", "Women", "Kids"], 200, 5000⟩,
   ⟨"Home & Kitchen", ["Appliances", "Cookware", "Bedding"], 500, 15000⟩,
   ⟨"Books", ["Fiction", "Non-Fiction", "Academic"], 100, 2000⟩,
   ⟨"Sports", ["Equipment", "Clothing", "Accessories"], 500, 10000⟩,
   ⟨"Beauty", ["Skincare", "Makeup", "Haircare"], 200, 5000⟩]

/-- Oracle values consumed for one product. -/
structure ProdChoice where
  subK : ℕ
  priceR : ℚ
  costR : ℚ
  nameW : String
  brandW : String
  stockK : ℕ
  supK : ℕ
deriving Repr

/-- One product record of `generate_products`: price uniform in the
category's price range rounded to 2 decimals, cost = price times a uniform
margin factor in `[0.4, 0.7]` rounded to 2 decimals. -/
def mkProduct (c : Category) (idx : ℕ) (o : ProdChoice) : Product :=
  let subcategory := pickD c.subcats "" o.subK
  let price := round2 (uniformQ c.priceLo c.priceHi o.priceR)
  let cost := round2 (price * uniformQ (2/5) (7/10) o.costR)
  { product_id := fmtId "PROD" 4 (idx + 1)
    product_name := o.nameW ++ " " ++ subcategory
    category := c.name
    sub_category := subcategory
    price := price
    cost := cost
    brand := o.brandW
    stock_quantity := randint 10 1000 o.stockK
    supplier_id := fmtId "SUP" 3 (randint 1 50 o.supK) }

/-- The inner `for i in range(items_per_category)` loop of
`generate_products`, threading the product list and the global
`product_idx`; the `if product_idx >= num_products: break` guard is the
early-return branch. -/
def catLoopGo (n : ℕ) (o : ℕ → ProdChoice) (c : Category) :
    ℕ → List Product → ℕ → List Product × ℕ
  | 0, ps, idx => (ps, idx)
  | cnt + 1, ps, idx =>
    if n ≤ idx then (ps, idx)
    else catLoopGo n o c cnt (ps ++ [mkProduct c idx (o idx)]) (idx + 1)

/-- `generate_products(num_products)`: for each category in order,
`num_products // len(CATEGORIES)` items are generated. -/
def generate_products (num_products : ℕ) (o : ℕ → ProdChoice) : List Product :=
  (CATEGORIES.foldl
    (fun st c => catLoopGo num_products o c (num_products / CATEGORIES.length) st.1 st.2)
    ([], 0)).1

def PAYMENT_METHODS : List String :=
  ["Credit Card", "Debit Card", "UPI", "Cash on Delivery", "Net Banking"]

/-- A Transaction record. -/
structure Transaction where
  transaction_id : String
  customer_id : String
  transaction_date : String
  transaction_time : String
  payment_method : String
  shipping_address : String
  total_amount : ℚ
deriving DecidableEq, Repr

/-- Oracle values consumed for one transaction. -/
structure TxnChoice where
  custK : ℕ
  dateS : String
  timeS : String
  payK : ℕ
  addrS : String
deriving Repr

/-- One transaction record of `generate_transactions`: the customer is
chosen from the supplied customer id list and `total_amount` is the
placeholder `0.0`. -/
def mkTransaction (customer_ids : List String) (i : ℕ) (o : TxnChoice) : Transaction :=
  { transaction_id := fmtId "TXN" 5 (i + 1)
    customer_id := pickD customer_ids "" o.custK
    transaction_date := o.dateS
    transaction_time := o.timeS
    payment_method := pickD PAYMENT_METHODS "" o.payK
    shipping_address := o.addrS
    total_amount := 0 }

/-- `generate_transactions(num_transactions, customers_df)` (the customers
argument is the row list; the source reads only its `customer_id` column). -/
def generate_transactions (num_transactions : ℕ) (customers : List Customer)
    (o : ℕ → TxnChoice) : List Transaction :=
  let customer_ids := customers.map Customer.customer_id
  (List.range num_transactions).map (fun i => mkTransaction customer_ids i (o i))

/-- The fixed discount enum `[0, 5, 10, 15, 20]` (percent). -/
def DISCOUNTS : List ℕ := [0, 5, 10, 15, 20]

/-- A TransactionItem record. -/
structure Item where
  item_id : String
  transaction_id : String
  product_id : String
  quantity : ℕ
  unit_price : ℚ
  discount_percentage : ℕ
  line_total : ℚ
deriving DecidableEq, Repr

/-- Oracle values consumed for one transaction item. -/
structure ItemChoice where
  productK : ℕ
  quantityK : ℕ
  discountK : ℕ
deriving Repr

/-- `dict(zip(products_df['product_id'], products_df['price']))`: a key to
value map built by successive dict assignments (a duplicated id keeps the
later price, as in Python). -/
def buildPriceMap (products : List Product) : List (String × ℚ) :=
  products.foldl (fun m p => setEntry m p.product_id p.price) []

/-- The canonical line-total formula
`round(quantity * unit_price * (1 - discount_percentage / 100), 2)`. -/
def lineTotalOf (quantity : ℕ) (unit_price : ℚ) (discount_percentage : ℕ) : ℚ :=
  round2 ((quantity : ℚ) * unit_price * (1 - (discount_percentage : ℚ) / 100))

/-- One transaction item of `generate_transaction_items`: a product chosen
from the product id list, quantity in `[1,5]`, the product's price as
`unit_price`, a discount from `DISCOUNTS`, and the computed `line_total`. -/
def mkItem (priceMap : List (String × ℚ)) (product_ids : List String)
    (txnId : String) (iid : ℕ) (ch : ItemChoice) : Item :=
  let product_id := pickD product_ids "" ch.productK
  let quantity := randint 1 5 ch.quantityK
  let unit_price := (priceMap.lookup product_id).getD 0
  let discount_percentage := pickD DISCOUNTS 0 ch.discountK
  { item_id := fmtId "ITEM" 5 iid
    transaction_id := txnId
    product_id := product_id
    quantity := quantity
    unit_price := unit_price
    discount_percentage := discount_percentage
    line_total := lineTotalOf quantity unit_price discount_percentage }

/-- The items generated for one transaction (`for _ in range(num_items)`),
with the running global `item_id` counter starting at `startId`. -/
def itemsForTxn (pm : List (String × ℚ)) (pids : List String) (txnId : String)
    (startId cnt : ℕ) (oc : ℕ → ItemChoice) : List Item :=
  (List.range cnt).map (fun j => mkItem pm pids txnId (startId + j) (oc j))

/-- The running `transaction_total += line_total` accumulation. -/
def sumLineTotals (l : List Item) : ℚ := l.foldl (fun s it => s + it.line_total) 0

/-- All items generated by the outer `for idx, row in transactions_df.iterrows()`
loop, starting at transaction index `tIdx` with next item id `nextId`. -/
def itemsList (pm : List (String × ℚ)) (pids : List String) (nI : ℕ → ℕ)
    (oI : ℕ → ℕ → ItemChoice) : List Transaction → ℕ → ℕ → List Item
  | [], _, _ => []
  | t :: ts, tIdx, nextId =>
    let cnt := randint 1 5 (nI tIdx)
    itemsForTxn pm pids t.transaction_id nextId cnt (oI tIdx)
      ++ itemsList pm pids nI oI ts (tIdx + 1) (nextId + cnt)

/-- The `transaction_totals` dict built by the same loop
(`transaction_totals[transaction_id] = transaction_total`). -/
def buildTotalsGo (pm : List (String × ℚ)) (pids : List String) (nI : ℕ → ℕ)
    (oI : ℕ → ℕ → ItemChoice) :
    List Transaction → ℕ → ℕ → List (String × ℚ) → List (String × ℚ)
  | [], _, _, acc => acc
  | t :: ts, tIdx, nextId, acc =>
    let cnt := randint 1 5 (nI tIdx)
    buildTotalsGo pm pids nI oI ts (tIdx + 1) (nextId + cnt)
      (setEntry acc t.transaction_id
        (sumLineTotals (itemsForTxn pm pids t.transaction_id nextId cnt (oI tIdx))))

/-- `generate_transaction_items(transactions_df, products_df)`.  The source
mutates `transactions_df` in place
(`transactions_df['total_amount'] = transactions_df['transaction_id'].map(transaction_totals)`)
and returns the items frame; the mutation is modelled by returning the
updated transaction list (and the untouched products) alongside the items.
Every iterated transaction id is a key of the totals dict, so the `.getD 0`
default of the lookup is never used on rows of the input. -/
def generate_transaction_items (transactions : List Transaction) (products : List Product)
    (nI : ℕ → ℕ) (oI : ℕ → ℕ → ItemChoice) :
    List Item × List Transaction × List Product :=
  let product_ids := products.map Product.product_id
  let product_prices := buildPriceMap products
  let items := itemsList product_prices product_ids nI oI transactions 0 1
  let totals := buildTotalsGo product_prices product_ids nI oI transactions 0 1 []
  (items,
   transactions.map (fun t => { t with total_amount := (totals.lookup t.transaction_id).getD 0 }),
   products)

/-! ## Integrity validator (generate_data.py, validate_referential_integrity) -/

/-- The validation report: violation counters, quality score and the one
`details` entry the source may populate (`invalid_transactions`). -/
structure ValidationResult where
  orphan_records : ℕ
  constraint_violations : ℕ
  quality_score : ℚ
  details_invalid_transactions : Option ℕ
deriving DecidableEq, Repr

/-- Check 3's recomputation of a stored item's line total. -/
def lineExpected (it : Item) : ℚ :=
  lineTotalOf it.quantity it.unit_price it.discount_percentage

/-- Check 3: the number of items whose stored `line_total` differs from the
recomputed canonical value (exact comparison). -/
def lineErrorCount (items : List Item) : ℕ :=
  (items.filter (fun it => decide (lineExpected it ≠ it.line_total))).length

/-- The quality-score policy: `100` for zero violations, otherwise
`max(0, 100 - violations / total_records * 100)`. -/
def qualityScore (violations total_records : ℕ) : ℚ :=
  if violations = 0 then 100
  else max 0 (100 - ((violations : ℚ) / (total_records : ℚ)) * 100)

/-- `validate_referential_integrity(customers_df, products_df,
transactions_df, items_df)` (DataFrames are passed as row lists; the checks
accumulate without short-circuiting, exactly as in the source). -/
def validate_referential_integrity (customers : List Customer) (products : List Product)
    (transactions : List Transaction) (items : List Item) : ValidationResult :=
  let customer_ids := customers.map Customer.customer_id
  let transaction_ids := transactions.map Transaction.transaction_id
  let product_ids := products.map Product.product_id
  let invalid_customers := transactions.filter (fun t => decide (t.customer_id ∉ customer_ids))
  let invalid_transactions := items.filter (fun it => decide (it.transaction_id ∉ transaction_ids))
  let invalid_products := items.filter (fun it => decide (it.product_id ∉ product_ids))
  let orphan_records :=
    invalid_customers.length + invalid_transactions.length + invalid_products.length
  let errors := lineErrorCount items
  let negative_prices := (products.filter (fun p => decide (p.price ≤ 0))).length
  let constraint_violations := errors + negative_prices
  let total_records := customers.length + products.length + transactions.length + items.length
  { orphan_records := orphan_records
    constraint_violations := constraint_violations
    quality_score := qualityScore (orphan_records + constraint_violations) total_records
    details_invalid_transactions :=
      if 0 < invalid_customers.length then some invalid_customers.length else none }

/-! ## Staging ingestion (ingest_to_staging.py) -/

/-- The structured per-table outcome dict.  A successful or failed load
carries all four keys; the file-not-found branch builds a dict with only
`status` and `error_message`, modelled by `none` in the other fields. -/
structure TableLoadResult where
  table : Option String
  rows_loaded : Option ℕ
  status : String
  error_message : Option String
deriving DecidableEq, Repr

/-- Abstract environment for the ingestion run: outcome of `connect`, of
`truncate_staging_tables`, per-file existence, and per-file load outcome
(rows loaded, or the exception message). -/
structure IngestEnv where
  connect_ok : Bool
  truncate_ok : Bool
  fileExists : String → Bool
  loadResult : String → Except String ℕ

/-- The `(csv file, staging table)` worklist of `ingest_all_data`. -/
def CSV_FILES : List (String × String) :=
  [("data/raw/customers.csv", "staging.customers"),
   ("data/raw/products.csv", "staging.products"),
   ("data/raw/transactions.csv", "staging.transactions"),
   ("data/raw/transaction_items.csv", "staging.transaction_items")]

/-- `load_csv_to_staging(csv_file, table_name)`: on success a structured
success dict with the row count, on any exception a rollback and a failed
dict with the error message (the function itself never raises). -/
def load_csv_to_staging (env : IngestEnv) (csv_file table_name : String) : TableLoadResult :=
  match env.loadResult csv_file with
  | .ok n =>
    { table := some table_name, rows_loaded := some n
      status := "success", error_message := none }
  | .error e =>
    { table := some table_name, rows_loaded := some 0
      status := "failed", error_message := some e }

/-- The ingestion run summary (`self.ingestion_results`), restricted to the
fields the claims are about: the per-table outcomes keyed by table name and
the overall `status`. -/
structure IngestionResults where
  tables_loaded : List (String × TableLoadResult)
  status : String
deriving DecidableEq, Repr

/-- `ingest_all_data`: connect, truncate, then loop over the four CSV files
recording a per-table outcome for every file (a failed load does not stop
the loop), finally setting `status = 'success'` unconditionally.  The
validation and timing steps only add keys not modelled here. -/
def ingest_all_data (env : IngestEnv) : IngestionResults :=
  if !env.connect_ok then { tables_loaded := [], status := "failed" }
  else if !env.truncate_ok then { tables_loaded := [], status := "failed" }
  else
    { tables_loaded :=
        CSV_FILES.map (fun ft =>
          if env.fileExists ft.1 then (ft.2, load_csv_to_staging env ft.1 ft.2)
          else (ft.2, { table := none, rows_loaded := none
                        status := "failed", error_message := some "File not found" }))
      status := "success" }

/-! ## Helper lemmas: decimal digits and identifier formats -/

theorem digitsGo_zero (f : ℕ) : digitsGo f 0 = [] := by cases f <;> rfl

theorem digitsGo_succ (f n : ℕ) :
    digitsGo (f + 1) (n + 1) = (n + 1) % 10 :: digitsGo f ((n + 1) / 10) := rfl

/-- Recombine a little-endian digit list into its value. -/
def digitsVal (l : List ℕ) : ℕ := l.foldr (fun d acc => d + 10 * acc) 0

theorem digitsGo_val : ∀ f n, n ≤ f → digitsVal (digitsGo f n) = n := by
  intro f
  induction f with
  | zero => intro n hn; interval_cases n; simp [digitsGo_zero, digitsVal]
  | succ f ih =>
    intro n hn
    match n with
    | 0 => simp [digitsGo_zero, digitsVal]
    | m + 1 =>
      rw [digitsGo_succ]
      have hdiv : (m + 1) / 10 ≤ f := by
        have := Nat.div_lt_self (Nat.succ_pos m) (by norm_num : 1 < 10)
        omega
      simp only [digitsVal, List.foldr_cons]
      have := ih ((m + 1) / 10) hdiv
      simp only [digitsVal] at this
      rw [this, Nat.mod_add_div]

theorem natDigits_val (n : ℕ) : digitsVal (natDigits n) = n := digitsGo_val n n le_rfl

theorem natDigits_inj {a b : ℕ} (h : natDigits a = natDigits b) : a = b := by
  have := natDigits_val a
  rw [h, natDigits_val] at this
  omega

theorem digitsGo_lt_ten : ∀ f n d, d ∈ digitsGo f n → d < 10 := by
  intro f
  induction f with
  | zero => intro n d hd; match n with
    | 0 => simp [digitsGo_zero] at hd
    | _ + 1 => simp [digitsGo] at hd
  | succ f ih =>
    intro n d hd
    match n with
    | 0 => simp [digitsGo_zero] at hd
    | m + 1 =>
      rw [digitsGo_succ] at hd
      rcases List.mem_cons.mp hd with h | h
      · subst h; exact Nat.mod_lt _ (by norm_num)
      · exact ih _ _ h

theorem natDigits_lt_ten (n d : ℕ) (hd : d ∈ natDigits n) : d < 10 :=
  digitsGo_lt_ten n n d hd

theorem digitsGo_ne_nil (f n : ℕ) (hn : n ≠ 0) (hf : n ≤ f) : digitsGo f n ≠ [] := by
  match f, n with
  | 0, n => omega
  | f + 1, 0 => omega
  | f + 1, m + 1 => rw [digitsGo_succ]; exact List.cons_ne_nil _ _

theorem digitsGo_getLast_ne_zero :
    ∀ f n, n ≠ 0 → n ≤ f → ∀ d, (digitsGo f n).getLast? = some d → d ≠ 0 := by
  intro f
  induction f with
  | zero => intro n hn hf; omega
  | succ f ih =>
    intro n hn hf d hd
    match n, hn with
    | m + 1, _ =>
      rw [digitsGo_succ] at hd
      by_cases hq : (m + 1) / 10 = 0
      · have hm : m + 1 < 10 := by
          rcases Nat.lt_or_ge (m + 1) 10 with h | h
          · exact h
          · exact absurd hq (by
              have := Nat.div_le_div_right (c := 10) h
              simp at this; omega)
        rw [hq, digitsGo_zero] at hd
        simp [List.getLast?] at hd
        rw [Nat.mod_eq_of_lt hm] at hd
        omega
      · have hqle : (m + 1) / 10 ≤ f := by
          have := Nat.div_lt_self (Nat.succ_pos m) (by norm_num : 1 < 10)
          omega
        have hne := digitsGo_ne_nil f _ hq hqle
        obtain ⟨c, cs, hcs⟩ := List.exists_cons_of_ne_nil hne
        rw [hcs] at hd
        rw [List.getLast?_cons_cons] at hd
        apply ih _ hq hqle d
        rw [hcs]
        exact hd

theorem natDigits_getLast_ne_zero (n : ℕ) (hn : n ≠ 0) (d : ℕ)
    (hd : (natDigits n).getLast? = some d) : d ≠ 0 :=
  digitsGo_getLast_ne_zero n n hn le_rfl d hd

theorem natChars_ne_nil (n : ℕ) (hn : n ≠ 0) : natChars n ≠ [] := by
  simp only [natChars, ne_eq, List.reverse_eq_nil_iff, List.map_eq_nil]
  exact digitsGo_ne_nil n n hn le_rfl

theorem natChars_head_ne_zero (n : ℕ) (hn : n ≠ 0) (c : Char)
    (hc : (natChars n).head? = some c) : c ≠ '0' := by
  rw [natChars, List.head?_reverse, List.getLast?_map] at hc
  match hlast : (natDigits n).getLast? with
  | none => rw [hlast] at hc; simp at hc
  | some d =>
    rw [hlast] at hc
    simp at hc
    have hd0 : d ≠ 0 := natDigits_getLast_ne_zero n hn d hlast
    have hd10 : d < 10 := by
      apply natDigits_lt_ten n d
      obtain ⟨h2, rfl⟩ := List.mem_getLast?_eq_getLast hlast
      exact List.getLast_mem h2
    subst hc
    revert hd0
    interval_cases d <;> decide

/-- `digitChar` is injective below 10. -/
theorem digitChar_inj_lt : ∀ d1 < 10, ∀ d2 < 10, Nat.digitChar d1 = Nat.digitChar d2 → d1 = d2 := by
  decide

theorem map_digitChar_inj : ∀ l1 l2 : List ℕ, (∀ d ∈ l1, d < 10) → (∀ d ∈ l2, d < 10) →
    l1.map Nat.digitChar = l2.map Nat.digitChar → l1 = l2 := by
  intro l1
  induction l1 with
  | nil => intro l2 _ _ h; cases l2 <;> simp_all
  | cons a l1 ih =>
    intro l2 h1 h2 h
    cases l2 with
    | nil => simp at h
    | cons b l2 =>
      simp only [List.map_cons, List.cons.injEq] at h
      have ha := h1 a (List.mem_cons_self a l1)
      have hb := h2 b (List.mem_cons_self b l2)
      have hab := digitChar_inj_lt a ha b hb h.1
      rw [hab, ih l2 (fun d hd => h1 d (List.mem_cons_of_mem a hd))
        (fun d hd => h2 d (List.mem_cons_of_mem b hd)) h.2]

theorem natChars_inj {a b : ℕ} (ha : a ≠ 0) (hb : b ≠ 0) (h : natChars a = natChars b) :
    a = b := by
  apply natDigits_inj
  apply map_digitChar_inj _ _ (natDigits_lt_ten a) (natDigits_lt_ten b)
  exact List.reverse_inj.mp h

theorem padChars_length (w k : ℕ) :
    (padChars w k).length = max w (natChars k).length := by
  simp [padChars]
  omega

theorem padChars_ne_of_length_lt (w : ℕ) {a b : ℕ} (hb : b ≠ 0)
    (hlt : (natChars a).length < (natChars b).length) :
    padChars w a ≠ padChars w b := by
  intro h
  have hlen : max w (natChars a).length = max w (natChars b).length := by
    rw [← padChars_length, ← padChars_length, h]
  have hbw : (natChars b).length ≤ w := by omega
  set i := w - (natChars b).length with hi
  have h1 : (padChars w a)[i]? = some '0' := by
    rw [padChars, List.getElem?_append]
    have : i < (List.replicate (w - (natChars a).length) '0').length := by
      simp; omega
    rw [if_pos this]
    simp [List.getElem?_replicate]
    omega
  have h2 : (padChars w b)[i]? = (natChars b).head? := by
    rw [padChars, List.getElem?_append_right (by simp)]
    simp only [List.length_replicate]
    have : i - (w - (natChars b).length) = 0 := by omega
    rw [this]
    cases natChars b <;> simp
  obtain ⟨c, hc⟩ : ∃ c, (natChars b).head? = some c := by
    cases hcb : natChars b with
    | nil => exact absurd hcb (natChars_ne_nil b hb)
    | cons c cs => exact ⟨c, by simp⟩
  have := natChars_head_ne_zero b hb c hc
  rw [h, h2, hc] at h1
  simp at h1
  exact this h1

theorem padChars_inj (w : ℕ) {a b : ℕ} (ha : a ≠ 0) (hb : b ≠ 0)
    (h : padChars w a = padChars w b) : a = b := by
  rcases Nat.lt_trichotomy (natChars a).length (natChars b).length with hlt | heq | hgt
  · exact absurd h (padChars_ne_of_length_lt w hb hlt)
  · apply natChars_inj ha hb
    rw [padChars, padChars, heq] at h
    exact List.append_cancel_left h
  · exact absurd h.symm (padChars_ne_of_length_lt w ha hgt)

theorem fmtId_inj (pre : String) (w : ℕ) {a b : ℕ} (ha : a ≠ 0) (hb : b ≠ 0)
    (h : fmtId pre w a = fmtId pre w b) : a = b := by
  apply padChars_inj w ha hb
  have hd := congrArg String.data h
  rw [fmtId, fmtId, String.data_append, String.data_append] at hd
  exact List.append_cancel_left hd

/-! ## Helper lemmas: choices, rounding, dict operations -/

theorem pickD_mem {α : Type} (l : List α) (d : α) (k : ℕ) (hl : l ≠ []) :
    pickD l d k ∈ l := by
  have hpos : 0 < l.length := List.length_pos.mpr hl
  have hk : k % l.length < l.length := Nat.mod_lt _ hpos
  rw [pickD, List.getD_eq_getElem?_getD, List.getElem?_eq_getElem hk]
  exact List.getElem_mem hk

theorem randint_le (a b k : ℕ) (hab : a ≤ b) : a ≤ randint a b k ∧ randint a b k ≤ b := by
  constructor
  · exact Nat.le_add_right a _
  · have : k % (b - a + 1) < b - a + 1 := Nat.mod_lt _ (Nat.succ_pos _)
    rw [randint]
    omega

theorem round2_le (x : ℚ) : round2 x ≤ x + 1 / 200 := by
  have h := abs_sub_round (x * 100)
  rw [abs_le] at h
  rw [round2]
  linarith [h.1, h.2]

theorem round2_ge (x : ℚ) : x - 1 / 200 ≤ round2 x := by
  have h := abs_sub_round (x * 100)
  rw [abs_le] at h
  rw [round2]
  linarith [h.1, h.2]

theorem clamp01_bounds (r : ℚ) : 0 ≤ clamp01 r ∧ clamp01 r ≤ 1 := by
  constructor
  · exact le_max_left 0 _
  · rw [clamp01]
    rcases le_total 1 r with h | h
    · simp [min_eq_left h]
    · rcases le_total 0 r with h0 | h0
      · rw [min_eq_right h]; rw [max_eq_right h0]; exact h
      · rw [max_eq_left]; norm_num
        exact le_trans (min_le_right 1 r) h0

theorem uniformQ_bounds (a b r : ℚ) (hab : a ≤ b) :
    a ≤ uniformQ a b r ∧ uniformQ a b r ≤ b := by
  obtain ⟨h0, h1⟩ := clamp01_bounds r
  constructor
  · rw [uniformQ]; nlinarith
  · rw [uniformQ]; nlinarith

theorem lookup_setEntry_self (m : List (String × ℚ)) (k : String) (v : ℚ) :
    (setEntry m k v).lookup k = some v := by
  induction m with
  | nil => simp [setEntry, List.lookup]
  | cons p rest ih =>
    obtain ⟨k', v'⟩ := p
    rw [setEntry]
    by_cases h : k' = k
    · rw [if_pos h]; simp [List.lookup]
    · rw [if_neg h]
      rw [List.lookup]
      have : (k == k') = false := by
        simp only [beq_eq_false_iff_ne, ne_eq]
        exact fun hk => h hk.symm
      rw [this]
      exact ih

theorem lookup_setEntry_ne (m : List (String × ℚ)) (k k' : String) (v : ℚ) (h : k' ≠ k) :
    (setEntry m k v).lookup k' = m.lookup k' := by
  induction m with
  | nil =>
    have hk : (k' == k) = false := by simp [beq_eq_false_iff_ne, h]
    simp [setEntry, List.lookup, hk]
  | cons p rest ih =>
    obtain ⟨k0, v0⟩ := p
    rw [setEntry]
    by_cases h0 : k0 = k
    · rw [if_pos h0]
      rw [List.lookup, List.lookup]
      have h1 : (k' == k) = false := by simp [beq_eq_false_iff_ne, h]
      have h2 : (k' == k0) = false := by simp [beq_eq_false_iff_ne, h0 ▸ h]
      rw [h1, h2]
    · rw [if_neg h0]
      rw [List.lookup, List.lookup]
      cases hk : (k' == k0)
      · exact ih
      · rfl

/-! ## Helper lemmas: generated items and the totals dict -/

@[simp] theorem mkItem_transaction_id (pm : List (String × ℚ)) (pids : List String)
    (tid : String) (iid : ℕ) (ch : ItemChoice) :
    (mkItem pm pids tid iid ch).transaction_id = tid := rfl

theorem mkItem_line_total_eq (pm : List (String × ℚ)) (pids : List String)
    (tid : String) (iid : ℕ) (ch : ItemChoice) :
    lineExpected (mkItem pm pids tid iid ch) = (mkItem pm pids tid iid ch).line_total := rfl

theorem mem_itemsForTxn (pm : List (String × ℚ)) (pids : List String) (tid : String)
    (s cnt : ℕ) (oc : ℕ → ItemChoice) (it : Item)
    (hit : it ∈ itemsForTxn pm pids tid s cnt oc) :
    ∃ j, it = mkItem pm pids tid (s + j) (oc j) := by
  rw [itemsForTxn] at hit
  obtain ⟨j, _, rfl⟩ := List.mem_map.mp hit
  exact ⟨j, rfl⟩

theorem mem_itemsList_shape (pm : List (String × ℚ)) (pids : List String)
    (nI : ℕ → ℕ) (oI : ℕ → ℕ → ItemChoice) :
    ∀ (ts : List Transaction) (tIdx nextId : ℕ) (it : Item),
      it ∈ itemsList pm pids nI oI ts tIdx nextId →
      ∃ t ∈ ts, ∃ iid ch, it = mkItem pm pids t.transaction_id iid ch := by
  intro ts
  induction ts with
  | nil => intro tIdx nextId it hit; simp [itemsList] at hit
  | cons t0 ts ih =>
    intro tIdx nextId it hit
    rw [itemsList] at hit
    rcases List.mem_append.mp hit with h | h
    · obtain ⟨j, rfl⟩ := mem_itemsForTxn _ _ _ _ _ _ _ h
      exact ⟨t0, List.mem_cons_self t0 ts, _, _, rfl⟩
    · obtain ⟨t, ht, iid, ch, rfl⟩ := ih _ _ _ h
      exact ⟨t, List.mem_cons_of_mem t0 ht, iid, ch, rfl⟩

theorem mem_itemsList_txn_id (pm : List (String × ℚ)) (pids : List String)
    (nI : ℕ → ℕ) (oI : ℕ → ℕ → ItemChoice) (ts : List Transaction) (tIdx nextId : ℕ)
    (it : Item) (hit : it ∈ itemsList pm pids nI oI ts tIdx nextId) :
    it.transaction_id ∈ ts.map Transaction.transaction_id := by
  obtain ⟨t, ht, iid, ch, rfl⟩ := mem_itemsList_shape pm pids nI oI ts tIdx nextId it hit
  rw [mkItem_transaction_id]
  exact List.mem_map_of_mem _ ht

theorem sumLineTotals_eq (l : List Item) :
    sumLineTotals l = (l.map Item.line_total).sum := by
  rw [sumLineTotals, ← List.foldl_map, List.sum_eq_foldl]

theorem sumLineTotals_append (a b : List Item) :
    sumLineTotals (a ++ b) = sumLineTotals a + sumLineTotals b := by
  simp [sumLineTotals_eq]

theorem buildTotalsGo_preserves (pm : List (String × ℚ)) (pids : List String)
    (nI : ℕ → ℕ) (oI : ℕ → ℕ → ItemChoice) :
    ∀ (ts : List Transaction) (tIdx nextId : ℕ) (acc : List (String × ℚ)) (key : String),
      key ∉ ts.map Transaction.transaction_id →
      (buildTotalsGo pm pids nI oI ts tIdx nextId acc).lookup key = acc.lookup key := by
  intro ts
  induction ts with
  | nil => intro tIdx nextId acc key _; rfl
  | cons t0 ts ih =>
    intro tIdx nextId acc key hk
    simp only [List.map_cons, List.mem_cons, not_or] at hk
    rw [buildTotalsGo]
    rw [ih _ _ _ _ hk.2]
    exact lookup_setEntry_ne _ _ _ _ hk.1

theorem buildTotalsGo_lookup (pm : List (String × ℚ)) (pids : List String)
    (nI : ℕ → ℕ) (oI : ℕ → ℕ → ItemChoice) :
    ∀ (ts : List Transaction) (tIdx nextId : ℕ) (acc : List (String × ℚ)),
      (ts.map Transaction.transaction_id).Nodup →
      ∀ t ∈ ts,
        (buildTotalsGo pm pids nI oI ts tIdx nextId acc).lookup t.transaction_id
          = some (sumLineTotals ((itemsList pm pids nI oI ts tIdx nextId).filter
              (fun it => it.transaction_id == t.transaction_id))) := by
  intro ts
  induction ts with
  | nil => intro tIdx nextId acc _ t ht; simp at ht
  | cons t0 ts ih =>
    intro tIdx nextId acc hnd t ht
    simp only [List.map_cons, List.nodup_cons] at hnd
    obtain ⟨h0, hnd'⟩ := hnd
    rw [buildTotalsGo, itemsList]
    rcases List.mem_cons.mp ht with rfl | hmem
    · rw [buildTotalsGo_preserves pm pids nI oI ts _ _ _ _ h0]
      rw [lookup_setEntry_self]
      congr 1
      rw [List.filter_append]
      have hfa : (itemsForTxn pm pids t.transaction_id nextId (randint 1 5 (nI tIdx))
          (oI tIdx)).filter (fun it => it.transaction_id == t.transaction_id)
            = itemsForTxn pm pids t.transaction_id nextId (randint 1 5 (nI tIdx)) (oI tIdx) := by
        apply List.filter_eq_self.mpr
        intro it hit
        obtain ⟨j, rfl⟩ := mem_itemsForTxn _ _ _ _ _ _ _ hit
        simp
      have hfb : (itemsList pm pids nI oI ts (tIdx + 1)
          (nextId + randint 1 5 (nI tIdx))).filter
            (fun it => it.transaction_id == t.transaction_id) = [] := by
        apply List.filter_eq_nil_iff.mpr
        intro it hit
        have := mem_itemsList_txn_id pm pids nI oI ts _ _ it hit
        simp only [beq_iff_eq]
        intro he
        exact h0 (he ▸ this)
      rw [hfa, hfb, sumLineTotals_append]
      simp [sumLineTotals]
    · have hne : t.transaction_id ≠ t0.transaction_id := by
        intro he
        exact h0 (he ▸ List.mem_map_of_mem _ hmem)
      rw [ih _ _ _ hnd' t hmem]
      congr 1
      rw [List.filter_append]
      have hfa : (itemsForTxn pm pids t0.transaction_id nextId (randint 1 5 (nI tIdx))
          (oI tIdx)).filter (fun it => it.transaction_id == t.transaction_id) = [] := by
        apply List.filter_eq_nil_iff.mpr
        intro it hit
        obtain ⟨j, rfl⟩ := mem_itemsForTxn _ _ _ _ _ _ _ hit
        simp only [mkItem_transaction_id, beq_iff_eq]
        exact fun he => hne he.symm
      rw [hfa]
      simp

/-! ## Helper lemmas: generated transactions and products -/

@[simp] theorem mkTransaction_transaction_id (cids : List String) (i : ℕ) (o : TxnChoice) :
    (mkTransaction cids i o).transaction_id = fmtId "TXN" 5 (i + 1) := rfl

@[simp] theorem mkTransaction_total_amount (cids : List String) (i : ℕ) (o : TxnChoice) :
    (mkTransaction cids i o).total_amount = 0 := rfl

theorem generate_transactions_ids_nodup (n : ℕ) (cs : List Customer) (o : ℕ → TxnChoice) :
    ((generate_transactions n cs o).map Transaction.transaction_id).Nodup := by
  rw [generate_transactions, List.map_map]
  apply List.Nodup.map_on
  · intro x _ y _ h
    simp only [Function.comp_apply, mkTransaction_transaction_id] at h
    have := fmtId_inj "TXN" 5 (Nat.succ_ne_zero x) (Nat.succ_ne_zero y) h
    omega
  · exact List.nodup_range n

/-- The per-category product segments produced when the
`product_idx >= num_products` break never fires (which is the case whenever
`idx + |cats| * ipc ≤ num_products`). -/
def catSegs (o : ℕ → ProdChoice) (ipc : ℕ) : List Category → ℕ → List Product
  | [], _ => []
  | c :: cs, idx =>
    (List.range ipc).map (fun i => mkProduct c (idx + i) (o (idx + i)))
      ++ catSegs o ipc cs (idx + ipc)

theorem catLoopGo_no_break (n : ℕ) (o : ℕ → ProdChoice) (c : Category) :
    ∀ (cnt : ℕ) (ps : List Product) (idx : ℕ), idx + cnt ≤ n →
      catLoopGo n o c cnt ps idx
        = (ps ++ (List.range cnt).map (fun i => mkProduct c (idx + i) (o (idx + i))),
           idx + cnt) := by
  intro cnt
  induction cnt with
  | zero => intro ps idx h; simp [catLoopGo]
  | succ cnt ih =>
    intro ps idx h
    rw [catLoopGo, if_neg (by omega), ih _ _ (by omega)]
    apply Prod.ext
    · show ps ++ [mkProduct c idx (o idx)]
          ++ (List.range cnt).map (fun i => mkProduct c (idx + 1 + i) (o (idx + 1 + i)))
        = ps ++ (List.range (cnt + 1)).map (fun i => mkProduct c (idx + i) (o (idx + i)))
      rw [List.range_succ_eq_map, List.map_cons, List.map_map]
      have hfun : ((fun i => mkProduct c (idx + i) (o (idx + i))) ∘ Nat.succ)
          = (fun i => mkProduct c (idx + 1 + i) (o (idx + 1 + i))) := by
        funext i
        simp only [Function.comp_apply]
        have h2 : idx + Nat.succ i = idx + 1 + i := by omega
        rw [h2]
      rw [hfun, List.append_assoc, List.singleton_append]
      simp
    · show idx + 1 + cnt = idx + (cnt + 1)
      omega

theorem foldl_catLoopGo (n : ℕ) (o : ℕ → ProdChoice) (ipc : ℕ) :
    ∀ (cats : List Category) (ps : List Product) (idx : ℕ),
      idx + cats.length * ipc ≤ n →
      cats.foldl (fun st c => catLoopGo n o c ipc st.1 st.2) (ps, idx)
        = (ps ++ catSegs o ipc cats idx, idx + cats.length * ipc) := by
  intro cats
  induction cats with
  | nil => intro ps idx h; simp [catSegs]
  | cons c cs ih =>
    intro ps idx h
    rw [List.length_cons, Nat.succ_mul] at h
    rw [List.foldl_cons]
    rw [catLoopGo_no_break n o c ipc ps idx (by omega)]
    rw [ih _ _ (by omega)]
    show ((ps ++ _) ++ catSegs o ipc cs (idx + ipc), idx + ipc + cs.length * ipc)
      = (ps ++ catSegs o ipc (c :: cs) idx, idx + (c :: cs).length * ipc)
    rw [catSegs]
    apply Prod.ext
    · show (ps ++ _) ++ catSegs o ipc cs (idx + ipc) = ps ++ (_ ++ catSegs o ipc cs (idx + ipc))
      rw [List.append_assoc]
    · show idx + ipc + cs.length * ipc = idx + (c :: cs).length * ipc
      rw [List.length_cons, Nat.succ_mul]
      omega

theorem generate_products_eq (n : ℕ) (o : ℕ → ProdChoice) :
    generate_products n o = catSegs o (n / 6) CATEGORIES 0 := by
  rw [generate_products]
  have hlen : CATEGORIES.length = 6 := rfl
  rw [hlen]
  rw [foldl_catLoopGo n o (n / 6) CATEGORIES [] 0 (by
    have := Nat.div_mul_le_self n 6
    have h6 : CATEGORIES.length = 6 := rfl
    rw [h6]
    omega)]
  simp

theorem catSegs_length (o : ℕ → ProdChoice) (ipc : ℕ) :
    ∀ (cats : List Category) (idx : ℕ),
      (catSegs o ipc cats idx).length = cats.length * ipc := by
  intro cats
  induction cats with
  | nil => intro idx; simp [catSegs]
  | cons c cs ih =>
    intro idx
    rw [catSegs]
    simp only [List.length_append, List.length_map, List.length_range, ih, List.length_cons]
    rw [Nat.succ_mul]
    omega

theorem mem_catSegs (o : ℕ → ProdChoice) (ipc : ℕ) :
    ∀ (cats : List Category) (idx : ℕ) (p : Product),
      p ∈ catSegs o ipc cats idx → ∃ c ∈ cats, ∃ k, p = mkProduct c k (o k) := by
  intro cats
  induction cats with
  | nil => intro idx p hp; simp [catSegs] at hp
  | cons c cs ih =>
    intro idx p hp
    rw [catSegs] at hp
    rcases List.mem_append.mp hp with h | h
    · obtain ⟨i, _, rfl⟩ := List.mem_map.mp h
      exact ⟨c, List.mem_cons_self c cs, idx + i, rfl⟩
    · obtain ⟨c', hc', k, rfl⟩ := ih _ _ h
      exact ⟨c', List.mem_cons_of_mem c hc', k, rfl⟩

@[simp] theorem mkProduct_category (c : Category) (idx : ℕ) (o : ProdChoice) :
    (mkProduct c idx o).category = c.name := rfl

theorem catSegs_filter_count (o : ℕ → ProdChoice) (ipc : ℕ) :
    ∀ (cats : List Category) (idx : ℕ),
      (cats.map Category.name).Nodup →
      ∀ c ∈ cats,
        ((catSegs o ipc cats idx).filter (fun p => p.category == c.name)).length = ipc := by
  intro cats
  induction cats with
  | nil => intro idx _ c hc; simp at hc
  | cons c0 cs ih =>
    intro idx hnd c hc
    simp only [List.map_cons, List.nodup_cons] at hnd
    obtain ⟨h0, hnd'⟩ := hnd
    rw [catSegs, List.filter_append]
    rcases List.mem_cons.mp hc with rfl | hmem
    · have hfa : ((List.range ipc).map (fun i => mkProduct c (idx + i) (o (idx + i)))).filter
          (fun p => p.category == c.name)
            = (List.range ipc).map (fun i => mkProduct c (idx + i) (o (idx + i))) := by
        apply List.filter_eq_self.mpr
        intro p hp
        obtain ⟨i, _, rfl⟩ := List.mem_map.mp hp
        simp
      have hfb : (catSegs o ipc cs (idx + ipc)).filter (fun p => p.category == c.name)
          = [] := by
        apply List.filter_eq_nil_iff.mpr
        intro p hp
        obtain ⟨c', hc', k, rfl⟩ := mem_catSegs o ipc cs _ p hp
        simp only [mkProduct_category, beq_iff_eq]
        intro he
        exact h0 (he ▸ List.mem_map_of_mem _ hc')
      rw [hfa, hfb]
      simp
    · have hne : c0.name ≠ c.name := by
        intro he
        exact h0 (he ▸ List.mem_map_of_mem _ hmem)
      have hfa : ((List.range ipc).map (fun i => mkProduct c0 (idx + i) (o (idx + i)))).filter
          (fun p => p.category == c.name) = [] := by
        apply List.filter_eq_nil_iff.mpr
        intro p hp
        obtain ⟨i, _, rfl⟩ := List.mem_map.mp hp
        simp only [mkProduct_category, beq_iff_eq]
        exact hne
      rw [hfa]
      simp [ih _ hnd' c hmem]

theorem CATEGORIES_price_bounds :
    ∀ c ∈ CATEGORIES, 100 ≤ c.priceLo ∧ c.priceLo ≤ c.priceHi := by decide

theorem mkProduct_price_cost (c : Category) (idx : ℕ) (o : ProdChoice)
    (h1 : 100 ≤ c.priceLo) (h2 : c.priceLo ≤ c.priceHi) :
    0 < (mkProduct c idx o).price ∧ (mkProduct c idx o).cost < (mkProduct c idx o).price := by
  have hprice : (mkProduct c idx o).price = round2 (uniformQ c.priceLo c.priceHi o.priceR) := rfl
  have hcost : (mkProduct c idx o).cost
      = round2 ((mkProduct c idx o).price * uniformQ (2/5) (7/10) o.costR) := rfl
  obtain ⟨hu1, hu2⟩ := uniformQ_bounds c.priceLo c.priceHi o.priceR h2
  obtain ⟨hm1, hm2⟩ := uniformQ_bounds (2/5) (7/10) o.costR (by norm_num)
  have hp_lb : (100 : ℚ) - 1/200 ≤ (mkProduct c idx o).price := by
    rw [hprice]
    have := round2_ge (uniformQ c.priceLo c.priceHi o.priceR)
    linarith
  have hp_pos : 0 < (mkProduct c idx o).price := by linarith
  refine ⟨hp_pos, ?_⟩
  have hc_le : (mkProduct c idx o).cost
      ≤ (mkProduct c idx o).price * uniformQ (2/5) (7/10) o.costR + 1/200 := by
    rw [hcost]
    exact round2_le _
  have hmul : (mkProduct c idx o).price * uniformQ (2/5) (7/10) o.costR
      ≤ (mkProduct c idx o).price * (7/10) := by
    apply mul_le_mul_of_nonneg_left hm2 (le_of_lt hp_pos)
  nlinarith

/-! ## Helper lemmas: the quality score -/

theorem qualityScore_lt_100 (v t : ℕ) (hv : 0 < v) (ht : 0 < t) : qualityScore v t < 100 := by
  rw [qualityScore, if_neg (by omega)]
  have hv' : (0:ℚ) < (v : ℚ) := by exact_mod_cast hv
  have ht' : (0:ℚ) < (t : ℚ) := by exact_mod_cast ht
  have hpos : (0:ℚ) < (v : ℚ) / (t : ℚ) * 100 := by positivity
  apply max_lt (by norm_num)
  linarith

theorem qualityScore_nonneg (v t : ℕ) : 0 ≤ qualityScore v t := by
  rw [qualityScore]
  split
  · norm_num
  · exact le_max_left 0 _

/-- The violation counters are bounded by the sizes of the collections the
corresponding checks iterate over. -/
theorem validate_counts_le (customers : List Customer) (products : List Product)
    (transactions : List Transaction) (items : List Item) :
    (validate_referential_integrity customers products transactions items).orphan_records
        ≤ transactions.length + items.length + items.length
    ∧ (validate_referential_integrity customers products transactions items).constraint_violations
        ≤ items.length + products.length := by
  constructor
  · simp only [validate_referential_integrity]
    exact add_le_add (add_le_add (List.length_filter_le _ _) (List.length_filter_le _ _))
      (List.length_filter_le _ _)
  · simp only [validate_referential_integrity, lineErrorCount]
    exact add_le_add (List.length_filter_le _ _) (List.length_filter_le _ _)

/-- Claim C2: `validate_referential_integrity` returns `quality_score = 100`
exactly when `orphan_records + constraint_violations = 0`, and otherwise
returns `max(0, 100 - violations / total_records * 100)` with the total
record count summed over the four input collections. -/
theorem c2_quality_score_formula (customers : List Customer) (products : List Product)
    (transactions : List Transaction) (items : List Item) :
    ((validate_referential_integrity customers products transactions items).quality_score
      = if (validate_referential_integrity customers products transactions items).orphan_records
          + (validate_referential_integrity customers products transactions items).constraint_violations
          = 0
        then 100
        else max 0 (100 -
          ((((validate_referential_integrity customers products transactions items).orphan_records
             + (validate_referential_integrity customers products transactions items).constraint_violations
             : ℕ) : ℚ)
           / ((customers.length + products.length + transactions.length + items.length : ℕ) : ℚ))
          * 100))
    ∧ ((validate_referential_integrity customers products transactions items).quality_score = 100
        ↔ (validate_referential_integrity customers products transactions items).orphan_records
            + (validate_referential_integrity customers products transactions items).constraint_violations
            = 0) := by
  obtain ⟨hb1, hb2⟩ := validate_counts_le customers products transactions items
  have hscore : (validate_referential_integrity customers products transactions items).quality_score
      = qualityScore
          ((validate_referential_integrity customers products transactions items).orphan_records
            + (validate_referential_integrity customers products transactions items).constraint_violations)
          (customers.length + products.length + transactions.length + items.length) := rfl
  constructor
  · rw [hscore, qualityScore]
  · constructor
    · intro h100
      by_contra hv
      have htot : 0 < customers.length + products.length + transactions.length + items.length := by
        omega
      have hlt := qualityScore_lt_100
        ((validate_referential_integrity customers products transactions items).orphan_records
          + (validate_referential_integrity customers products transactions items).constraint_violations)
        (customers.length + products.length + transactions.length + items.length)
        (by omega) htot
      rw [← hscore, h100] at hlt
      exact absurd hlt (lt_irrefl _)
    · intro hv
      rw [hscore, qualityScore, if_pos hv]

/-- Items for the C7 counterexample: one with a correct stored line total,
one whose stored line total disagrees with the canonical recomputation. -/
def itemOkC7 : Item :=
  { item_id := "ITEM00001", transaction_id := "TXN00001", product_id := "PROD0001",
    quantity := 1, unit_price := 1, discount_percentage := 0, line_total := 1 }

def itemBadC7 : Item := { itemOkC7 with line_total := 2 }

/-- Claim C7 counterexample: two datasets with the same total record count
(one item, nothing else) where the violation count rises from 2 to 3 yet the
quality score stays at 0 — the score is not strictly decreasing in the
violation count once the `max(0, ·)` clamp is reached. -/
theorem c7_counterexample :
    (validate_referential_integrity [] [] [] [itemOkC7]).orphan_records
        + (validate_referential_integrity [] [] [] [itemOkC7]).constraint_violations = 2
    ∧ (validate_referential_integrity [] [] [] [itemBadC7]).orphan_records
        + (validate_referential_integrity [] [] [] [itemBadC7]).constraint_violations = 3
    ∧ (validate_referential_integrity [] [] [] [itemOkC7]).quality_score = 0
    ∧ (validate_referential_integrity [] [] [] [itemBadC7]).quality_score = 0
    ∧ ¬ (validate_referential_integrity [] [] [] [itemBadC7]).quality_score
        < (validate_referential_integrity [] [] [] [itemOkC7]).quality_score := by
  decide

/-- Claim C7 (amended): for a fixed positive total record count, the quality
score is non-increasing in the violation count, strictly decreasing as long
as it has not been clamped to 0, and bounded below by 0. -/
theorem c7_score_monotone (t v1 v2 : ℕ) (ht : 0 < t) (h12 : v1 < v2) :
    qualityScore v2 t ≤ qualityScore v1 t
    ∧ (0 < qualityScore v2 t → qualityScore v2 t < qualityScore v1 t)
    ∧ (∀ v t' : ℕ, 0 ≤ qualityScore v t') := by
  have ht' : (0:ℚ) < (t : ℚ) := by exact_mod_cast ht
  have hv2 : 0 < v2 := by omega
  by_cases h1 : v1 = 0
  · subst h1
    have hlt := qualityScore_lt_100 v2 t hv2 ht
    have h100 : qualityScore 0 t = 100 := by rw [qualityScore, if_pos rfl]
    refine ⟨?_, ?_, fun v t' => qualityScore_nonneg v t'⟩
    · rw [h100]; linarith
    · intro _; rw [h100]; linarith
  · have hx : ((v1 : ℚ) / (t : ℚ)) * 100 < ((v2 : ℚ) / (t : ℚ)) * 100 := by
      have hv12 : (v1 : ℚ) < (v2 : ℚ) := by exact_mod_cast h12
      gcongr
    have hs1 : qualityScore v1 t = max 0 (100 - ((v1 : ℚ) / (t : ℚ)) * 100) := by
      rw [qualityScore, if_neg h1]
    have hs2 : qualityScore v2 t = max 0 (100 - ((v2 : ℚ) / (t : ℚ)) * 100) := by
      rw [qualityScore, if_neg (by omega)]
    refine ⟨?_, ?_, fun v t' => qualityScore_nonneg v t'⟩
    · rw [hs1, hs2]
      exact max_le_max le_rfl (by linarith)
    · intro hpos
      rw [hs2] at hpos ⊢
      rw [hs1]
      have hy : 0 < 100 - ((v2 : ℚ) / (t : ℚ)) * 100 := by
        by_contra hy
        push_neg at hy
        rw [max_eq_left hy] at hpos
        exact absurd hpos (lt_irrefl _)
      rw [max_eq_right (le_of_lt hy)]
      calc 100 - ((v2 : ℚ) / (t : ℚ)) * 100
          < 100 - ((v1 : ℚ) / (t : ℚ)) * 100 := by linarith
        _ ≤ max 0 (100 - ((v1 : ℚ) / (t : ℚ)) * 100) := le_max_right _ _

/-- Witness for C7's amended theorem at `t = 10`, `v1 = 1`, `v2 = 2`. -/
theorem c7_score_monotone_witness :
    (0 < 10 ∧ 1 < 2)
    ∧ (qualityScore 2 10 ≤ qualityScore 1 10
       ∧ (0 < qualityScore 2 10 → qualityScore 2 10 < qualityScore 1 10)
       ∧ (∀ v t' : ℕ, 0 ≤ qualityScore v t')) :=
  ⟨⟨by norm_num, by norm_num⟩, c7_score_monotone 10 1 2 (by norm_num) (by norm_num)⟩

/-! ## Concrete oracles and records used by witnesses and counterexamples -/

def oracleCustDef : ℕ → CustChoice :=
  fun i => ⟨"F", "L", "e@x.com", "1234567890", "2024-01-01", "City", "St", i⟩

def oracleProdDef : ℕ → ProdChoice := fun _ => ⟨0, 0, 0, "W", "B", 0, 0⟩

def oracleTxnDef : ℕ → TxnChoice := fun _ => ⟨0, "2024-01-01", "00:00:00", 0, "addr"⟩

def oracleNumItemsDef : ℕ → ℕ := fun _ => 0

def oracleItemsDef : ℕ → ℕ → ItemChoice := fun _ _ => ⟨0, 0, 0⟩

def custW : Customer :=
  ⟨"CUST0001", "A", "B", "a@x.com", "123", "2024-01-01", "City", "St", "India", "18-25"⟩

def prodW : Product :=
  ⟨"PROD0001", "W Phones", "Electronics", "Phones", 500, 200, "B", 10, "SUP001"⟩

def txnW : Transaction :=
  ⟨"TXN00001", "CUST0001", "2024-01-01", "00:00:00", "UPI", "addr", 0⟩

/-! ## Claim C1 -/

/-- Claim C1: every item produced by `generate_transaction_items` stores
`line_total = round(quantity * unit_price * (1 - discount_percentage/100), 2)`,
and the validator's consistency check (which recomputes the same formula and
compares exactly) counts zero violations on generated items. -/
theorem c1_line_total_consistency (transactions : List Transaction) (products : List Product)
    (nI : ℕ → ℕ) (oI : ℕ → ℕ → ItemChoice) :
    (∀ it ∈ (generate_transaction_items transactions products nI oI).1,
        it.line_total = lineTotalOf it.quantity it.unit_price it.discount_percentage)
    ∧ lineErrorCount (generate_transaction_items transactions products nI oI).1 = 0 := by
  have key : ∀ it ∈ (generate_transaction_items transactions products nI oI).1,
      lineExpected it = it.line_total := by
    intro it hit
    obtain ⟨t, _, iid, ch, rfl⟩ := mem_itemsList_shape (buildPriceMap products)
      (products.map Product.product_id) nI oI transactions 0 1 it hit
    exact mkItem_line_total_eq _ _ _ _ _
  constructor
  · intro it hit
    exact (key it hit).symm
  · rw [lineErrorCount]
    have hnil : ((generate_transaction_items transactions products nI oI).1.filter
        (fun it => decide (lineExpected it ≠ it.line_total))) = [] := by
      apply List.filter_eq_nil_iff.mpr
      intro it hit
      simp only [decide_eq_true_eq, ne_eq, not_not]
      exact key it hit
    rw [hnil]
    rfl

/-- Witness for C1: a concrete generated item. -/
def itemW : Item := ⟨"ITEM00001", "TXN00001", "PROD0001", 1, 500, 0, 500⟩

theorem c1_witness :
    (itemW ∈ (generate_transaction_items [txnW] [prodW] oracleNumItemsDef oracleItemsDef).1)
    ∧ itemW.line_total = lineTotalOf itemW.quantity itemW.unit_price itemW.discount_percentage
    ∧ lineErrorCount (generate_transaction_items [txnW] [prodW] oracleNumItemsDef oracleItemsDef).1
        = 0 :=
  ⟨by decide,
   (c1_line_total_consistency [txnW] [prodW] oracleNumItemsDef oracleItemsDef).1 itemW (by decide),
   (c1_line_total_consistency [txnW] [prodW] oracleNumItemsDef oracleItemsDef).2⟩

/-! ## Claim C10 -/

/-- Equality of all Transaction fields except `total_amount`. -/
def sameExceptTotal (t t' : Transaction) : Prop :=
  t'.transaction_id = t.transaction_id ∧ t'.customer_id = t.customer_id
  ∧ t'.transaction_date = t.transaction_date ∧ t'.transaction_time = t.transaction_time
  ∧ t'.payment_method = t.payment_method ∧ t'.shipping_address = t.shipping_address

/-- Claim C10: `generate_transaction_items` leaves the products untouched and
rewrites the transactions row-for-row, changing only `total_amount`. -/
theorem c10_frame_effect (transactions : List Transaction) (products : List Product)
    (nI : ℕ → ℕ) (oI : ℕ → ℕ → ItemChoice) :
    (generate_transaction_items transactions products nI oI).2.2 = products
    ∧ (generate_transaction_items transactions products nI oI).2.1.length = transactions.length
    ∧ List.Forall₂ sameExceptTotal transactions
        (generate_transaction_items transactions products nI oI).2.1 := by
  refine ⟨rfl, by simp [generate_transaction_items], ?_⟩
  rw [show (generate_transaction_items transactions products nI oI).2.1
      = transactions.map (fun t =>
          { t with total_amount :=
              (((buildTotalsGo (buildPriceMap products) (products.map Product.product_id)
                  nI oI transactions 0 1 []).lookup t.transaction_id).getD 0) }) from rfl]
  rw [List.forall₂_map_right_iff]
  exact List.forall₂_same.mpr (fun t _ => ⟨rfl, rfl, rfl, rfl, rfl, rfl⟩)

/-! ## Claim C5 -/

/-- Claim C5: `generate_products n` returns exactly `6 * (n / 6)` products —
each of the six categories contributes `n / 6` items and the remainder is
silently dropped. -/
theorem c5_product_count (n : ℕ) (o : ℕ → ProdChoice) :
    (generate_products n o).length = 6 * (n / 6)
    ∧ ∀ c ∈ CATEGORIES,
        ((generate_products n o).filter (fun p => p.category == c.name)).length = n / 6 := by
  rw [generate_products_eq]
  constructor
  · rw [catSegs_length]
    rfl
  · intro c hc
    exact catSegs_filter_count o (n / 6) CATEGORIES 0 (by decide) c hc

def categoryElectronics : Category :=
  ⟨"Electronics", ["Phones", "Laptops", "Tablets", "Accessories"], 500, 50000⟩

theorem c5_witness :
    (generate_products 7 oracleProdDef).length = 6 * (7 / 6)
    ∧ (categoryElectronics ∈ CATEGORIES
       ∧ ((generate_products 7 oracleProdDef).filter
            (fun p => p.category == categoryElectronics.name)).length = 7 / 6) :=
  ⟨(c5_product_count 7 oracleProdDef).1,
   by decide,
   (c5_product_count 7 oracleProdDef).2 categoryElectronics (by decide)⟩

/-! ## Claim C6 -/

/-- Claim C6: every generated product has a strictly positive price and a
cost strictly below its price, even after both are rounded to 2 decimals. -/
theorem c6_price_cost (n : ℕ) (o : ℕ → ProdChoice) :
    ∀ p ∈ generate_products n o, 0 < p.price ∧ p.cost < p.price := by
  intro p hp
  rw [generate_products_eq] at hp
  obtain ⟨c, hc, k, rfl⟩ := mem_catSegs o (n / 6) CATEGORIES 0 p hp
  obtain ⟨h1, h2⟩ := CATEGORIES_price_bounds c hc
  exact mkProduct_price_cost c k (o k) h1 h2

def prodG : Product := ⟨"PROD0001", "W Phones", "Electronics", "Phones", 500, 200, "B", 10, "SUP001"⟩

theorem c6_witness :
    (prodG ∈ generate_products 6 oracleProdDef)
    ∧ (0 < prodG.price ∧ prodG.cost < prodG.price) :=
  ⟨by decide, c6_price_cost 6 oracleProdDef prodG (by decide)⟩

/-! ## Claim C8 -/

/-- Claim C8 counterexample: `generate_customers(0)` does return an empty
collection without raising, but with an empty column set, not the column set
of positive counts; and a negative count behaves exactly like zero instead
of failing fast. -/
theorem c8_counterexample :
    (generate_customers 0 oracleCustDef).columns ≠ (generate_customers 1 oracleCustDef).columns
    ∧ generate_customers (-1) oracleCustDef = generate_customers 0 oracleCustDef := by
  decide

/-- Claim C8 (amended): for every count `≤ 0`, `generate_customers` silently
returns the empty frame with an empty column set — the zero case does not
carry the positive-count columns, and negative counts are not rejected. -/
theorem c8_nonpositive_empty (num : ℤ) (h : num ≤ 0) (o : ℕ → CustChoice) :
    generate_customers num o = ⟨[], []⟩ := by
  rw [generate_customers, Int.toNat_of_nonpos h]
  rfl

theorem c8_nonpositive_empty_witness :
    ((-2 : ℤ) ≤ 0) ∧ generate_customers (-2) oracleCustDef = ⟨[], []⟩ :=
  ⟨by decide, c8_nonpositive_empty (-2) (by decide) oracleCustDef⟩

/-! ## Claim C9 -/

/-- Environment for the C9 counterexample: connection and truncation succeed,
all four files exist, and the first table's load raises. -/
def envC9 : IngestEnv :=
  { connect_ok := true, truncate_ok := true
    fileExists := fun _ => true
    loadResult := fun f => if f = "data/raw/customers.csv" then .error "DB error" else .ok 3 }

/-- Claim C9 counterexample: with one failed table load the loop still
attempts the other three tables, but the overall stage status is reported
`'success'`, not `'failed'`. -/
theorem c9_counterexample :
    ((ingest_all_data envC9).tables_loaded.map (fun p => p.2.status))
        = ["failed", "success", "success", "success"]
    ∧ (ingest_all_data envC9).status = "success" := by
  decide

/-- Claim C9 (amended): whenever connection and truncation succeed, every one
of the four tables is attempted and recorded regardless of individual load
failures, and the overall status is set to `'success'` unconditionally after
the loop; the status is `'failed'` only when connect or truncate fails (in
which case no table is attempted). -/
theorem c9_stage_status (env : IngestEnv) :
    (env.connect_ok = true → env.truncate_ok = true →
      (ingest_all_data env).tables_loaded.map Prod.fst = CSV_FILES.map Prod.snd
      ∧ (ingest_all_data env).status = "success")
    ∧ ((env.connect_ok = false ∨ env.truncate_ok = false) →
      (ingest_all_data env).status = "failed"
      ∧ (ingest_all_data env).tables_loaded = []) := by
  constructor
  · intro hc ht
    rw [ingest_all_data, hc, ht]
    simp only [Bool.not_true, Bool.false_eq_true, if_false]
    constructor
    · rw [List.map_map]
      apply List.map_congr_left
      intro ft _
      simp only [Function.comp_apply]
      by_cases hf : env.fileExists ft.1 = true
      · rw [if_pos hf]
      · rw [if_neg hf]
    · trivial
  · intro h
    rcases h with h | h
    · rw [ingest_all_data, h]
      exact ⟨rfl, rfl⟩
    · rw [ingest_all_data, h]
      cases hc : env.connect_ok
      · simp
      · simp

theorem c9_stage_status_witness :
    (envC9.connect_ok = true ∧ envC9.truncate_ok = true)
    ∧ ((ingest_all_data envC9).tables_loaded.map Prod.fst = CSV_FILES.map Prod.snd
       ∧ (ingest_all_data envC9).status = "success") :=
  ⟨⟨rfl, rfl⟩, (c9_stage_status envC9).1 rfl rfl⟩

/-! ## Claim C4 -/

/-- Claim C4: `generate_transactions` sets every `total_amount` to the
placeholder `0.0`, and after `generate_transaction_items` the back-filled
`total_amount` of every transaction equals the sum of the line totals of the
items generated for its transaction id. -/
theorem c4_two_phase_total (n : ℕ) (customers : List Customer) (oT : ℕ → TxnChoice)
    (products : List Product) (nI : ℕ → ℕ) (oI : ℕ → ℕ → ItemChoice) :
    (∀ t ∈ generate_transactions n customers oT, t.total_amount = 0)
    ∧ (∀ t' ∈ (generate_transaction_items (generate_transactions n customers oT)
          products nI oI).2.1,
        t'.total_amount = sumLineTotals
          ((generate_transaction_items (generate_transactions n customers oT)
              products nI oI).1.filter
            (fun it => it.transaction_id == t'.transaction_id))) := by
  constructor
  · intro t ht
    rw [generate_transactions] at ht
    obtain ⟨i, _, rfl⟩ := List.mem_map.mp ht
    rfl
  · intro t' ht'
    have ht'' : t' ∈ (generate_transactions n customers oT).map (fun t =>
        { t with total_amount :=
            (((buildTotalsGo (buildPriceMap products) (products.map Product.product_id)
                nI oI (generate_transactions n customers oT) 0 1 []).lookup
              t.transaction_id).getD 0) }) := ht'
    obtain ⟨t, ht, rfl⟩ := List.mem_map.mp ht''
    have hlk := buildTotalsGo_lookup (buildPriceMap products) (products.map Product.product_id)
      nI oI (generate_transactions n customers oT) 0 1 []
      (generate_transactions_ids_nodup n customers oT) t ht
    show ((buildTotalsGo (buildPriceMap products) (products.map Product.product_id)
        nI oI (generate_transactions n customers oT) 0 1 []).lookup t.transaction_id).getD 0
      = sumLineTotals ((generate_transaction_items (generate_transactions n customers oT)
          products nI oI).1.filter (fun it => it.transaction_id == t.transaction_id))
    rw [hlk]
    rfl

def txnG : Transaction :=
  ⟨"TXN00001", "CUST0001", "2024-01-01", "00:00:00", "Credit Card", "addr", 0⟩

def txnG500 : Transaction :=
  ⟨"TXN00001", "CUST0001", "2024-01-01", "00:00:00", "Credit Card", "addr", 500⟩

theorem c4_witness :
    (txnG ∈ generate_transactions 1 [custW] oracleTxnDef ∧ txnG.total_amount = 0)
    ∧ (txnG500 ∈ (generate_transaction_items (generate_transactions 1 [custW] oracleTxnDef)
          [prodW] oracleNumItemsDef oracleItemsDef).2.1
       ∧ txnG500.total_amount = sumLineTotals
          ((generate_transaction_items (generate_transactions 1 [custW] oracleTxnDef)
              [prodW] oracleNumItemsDef oracleItemsDef).1.filter
            (fun it => it.transaction_id == txnG500.transaction_id))) :=
  ⟨⟨by decide,
    (c4_two_phase_total 1 [custW] oracleTxnDef [prodW] oracleNumItemsDef oracleItemsDef).1
      txnG (by decide)⟩,
   ⟨by decide,
    (c4_two_phase_total 1 [custW] oracleTxnDef [prodW] oracleNumItemsDef oracleItemsDef).2
      txnG500 (by decide)⟩⟩

/-! ## Claim C3 -/

/-- Claim C3: with nonempty customers and products, the generated data is
referentially closed — every transaction's customer, every item's
transaction and every item's product reference existing rows — and the
validator reports `orphan_records = 0`. -/
theorem c3_referential_closure (n : ℕ) (customers : List Customer) (products : List Product)
    (oT : ℕ → TxnChoice) (nI : ℕ → ℕ) (oI : ℕ → ℕ → ItemChoice)
    (hc : customers ≠ []) (hp : products ≠ []) :
    (∀ t ∈ generate_transactions n customers oT,
        t.customer_id ∈ customers.map Customer.customer_id)
    ∧ (∀ it ∈ (generate_transaction_items (generate_transactions n customers oT)
          products nI oI).1,
        it.transaction_id ∈ (generate_transactions n customers oT).map
          Transaction.transaction_id)
    ∧ (∀ it ∈ (generate_transaction_items (generate_transactions n customers oT)
          products nI oI).1,
        it.product_id ∈ products.map Product.product_id)
    ∧ (validate_referential_integrity customers products
        (generate_transaction_items (generate_transactions n customers oT) products nI oI).2.1
        (generate_transaction_items (generate_transactions n customers oT)
          products nI oI).1).orphan_records = 0 := by
  have hcids : customers.map Customer.customer_id ≠ [] := by simpa using hc
  have hpids : products.map Product.product_id ≠ [] := by simpa using hp
  have htxn : ∀ t ∈ generate_transactions n customers oT,
      t.customer_id ∈ customers.map Customer.customer_id := by
    intro t ht
    rw [generate_transactions] at ht
    obtain ⟨i, _, rfl⟩ := List.mem_map.mp ht
    show pickD (customers.map Customer.customer_id) "" (oT i).custK ∈ _
    exact pickD_mem _ _ _ hcids
  have hitems_txn : ∀ it ∈ (generate_transaction_items (generate_transactions n customers oT)
      products nI oI).1,
      it.transaction_id ∈ (generate_transactions n customers oT).map
        Transaction.transaction_id := by
    intro it hit
    exact mem_itemsList_txn_id (buildPriceMap products) (products.map Product.product_id)
      nI oI (generate_transactions n customers oT) 0 1 it hit
  have hitems_prod : ∀ it ∈ (generate_transaction_items (generate_transactions n customers oT)
      products nI oI).1, it.product_id ∈ products.map Product.product_id := by
    intro it hit
    obtain ⟨t, _, iid, ch, rfl⟩ := mem_itemsList_shape (buildPriceMap products)
      (products.map Product.product_id) nI oI (generate_transactions n customers oT) 0 1 it hit
    show pickD (products.map Product.product_id) "" ch.productK ∈ _
    exact pickD_mem _ _ _ hpids
  refine ⟨htxn, hitems_txn, hitems_prod, ?_⟩
  have hupd : ∀ t' ∈ (generate_transaction_items (generate_transactions n customers oT)
      products nI oI).2.1, t'.customer_id ∈ customers.map Customer.customer_id := by
    intro t' ht'
    have ht'' : t' ∈ (generate_transactions n customers oT).map (fun t =>
        { t with total_amount :=
            (((buildTotalsGo (buildPriceMap products) (products.map Product.product_id)
                nI oI (generate_transactions n customers oT) 0 1 []).lookup
              t.transaction_id).getD 0) }) := ht'
    obtain ⟨t, ht, rfl⟩ := List.mem_map.mp ht''
    show t.customer_id ∈ customers.map Customer.customer_id
    exact htxn t ht
  have hupd_ids : (generate_transaction_items (generate_transactions n customers oT)
        products nI oI).2.1.map Transaction.transaction_id
      = (generate_transactions n customers oT).map Transaction.transaction_id := by
    show ((generate_transactions n customers oT).map _).map Transaction.transaction_id = _
    rw [List.map_map]
    rfl
  simp only [validate_referential_integrity]
  have h1 : (generate_transaction_items (generate_transactions n customers oT)
      products nI oI).2.1.filter
        (fun t => decide (t.customer_id ∉ customers.map Customer.customer_id)) = [] := by
    apply List.filter_eq_nil_iff.mpr
    intro t ht
    simp only [decide_eq_true_eq]
    exact fun hn => hn (hupd t ht)
  have h2 : (generate_transaction_items (generate_transactions n customers oT)
      products nI oI).1.filter
        (fun it => decide (it.transaction_id
          ∉ (generate_transaction_items (generate_transactions n customers oT)
              products nI oI).2.1.map Transaction.transaction_id)) = [] := by
    apply List.filter_eq_nil_iff.mpr
    intro it hit
    simp only [decide_eq_true_eq]
    exact fun hn => hn (hupd_ids.symm ▸ hitems_txn it hit)
  have h3 : (generate_transaction_items (generate_transactions n customers oT)
      products nI oI).1.filter
        (fun it => decide (it.product_id ∉ products.map Product.product_id)) = [] := by
    apply List.filter_eq_nil_iff.mpr
    intro it hit
    simp only [decide_eq_true_eq]
    exact fun hn => hn (hitems_prod it hit)
  rw [h1, h2, h3]
  rfl

theorem c3_witness :
    (([custW] : List Customer) ≠ [] ∧ ([prodW] : List Product) ≠ [])
    ∧ (validate_referential_integrity [custW] [prodW]
        (generate_transaction_items (generate_transactions 1 [custW] oracleTxnDef)
          [prodW] oracleNumItemsDef oracleItemsDef).2.1
        (generate_transaction_items (generate_transactions 1 [custW] oracleTxnDef)
          [prodW] oracleNumItemsDef oracleItemsDef).1).orphan_records = 0 :=
  ⟨⟨by decide, by decide⟩,
   (c3_referential_closure 1 [custW] [prodW] oracleTxnDef oracleNumItemsDef oracleItemsDef
      (by decide) (by decide)).2.2.2⟩
